import Mathlib

/-!
# Formal model of the TensileTestAnalyzer analysis pipeline

A shallow embedding of the `/analyze` route of
`src/TensileTestAnalyzer/app.py` (Flask app).  The numeric core — the
derivation of stress, strain, per-point secant modulus, tangent modulus,
the robust scalar modulus `E`, the 0.2 %-offset yield search and the
post-peak fracture search — is translated into executable Lean
definitions over `ℚ`.

Modelling conventions:

* IEEE-754 doubles are modelled by exact rational arithmetic.  Claims
  analysed here concern the algorithmic structure (index arithmetic,
  branch selection, order of comparisons), not rounding error.
* `x / 0 = 0` in `ℚ`; where the Python code can genuinely divide by
  zero and produce non-finite floats (`np.gradient` with repeated
  strain values), a separate `Option ℚ`-valued model `npGradientVal`
  tracks finiteness: `none` stands for an `inf`/`nan` entry.  All
  concrete inputs evaluated through the `ℚ`-valued pipeline have
  non-zero divisors, so the two models agree there.
* `slope_angles = np.degrees(np.arctan(values))` is a reporting
  convenience; since `arctan` is strictly monotone (hence injective),
  points store the *argument* of the arctangent (`slopeAngleArg`)
  instead of the transcendental angle, keeping everything decidable.
* Flask/pandas concerns (file upload, CSV parsing, column detection,
  JSON serialisation, `round(·, 2)` display rounding) are the I/O
  boundary: the model starts from the two numeric columns after
  `pd.to_numeric(...).dropna()` (app.py lines 62–63) and does not
  model display rounding (line 190–193), which no claim touches.
-/

namespace TensileTestAnalyzer

/-- `np.max` over a 1-D array.  `np.max` of an empty array raises; the
pipeline model returns an error before ever calling this on an empty
list, so the `[]` case value is irrelevant (we use `0`). -/
def npMax : List ℚ → ℚ
  | [] => 0
  | x :: xs => xs.foldl max x

/-- `np.min` over a 1-D array (same convention as `npMax`). -/
def npMin : List ℚ → ℚ
  | [] => 0
  | x :: xs => xs.foldl min x

/-- `np.argmax`: index of the first occurrence of the maximum value
(numpy returns the first maximal index). -/
def npArgmax (xs : List ℚ) : ℕ :=
  xs.findIdx (fun v => decide (npMax xs ≤ v))

/-- `np.argmin`: index of the first occurrence of the minimum value. -/
def npArgmin (xs : List ℚ) : ℕ :=
  xs.findIdx (fun v => decide (v ≤ npMin xs))

/-- `np.mean`.  (Empty input gives `0 / 0 = 0` in `ℚ`; the pipeline
only calls this on non-empty lists.) -/
def mean (xs : List ℚ) : ℚ := xs.sum / (xs.length : ℚ)

/-- Insertion step for an ascending insertion sort. -/
def insertSorted (a : ℚ) : List ℚ → List ℚ
  | [] => [a]
  | b :: bs => if a ≤ b then a :: b :: bs else b :: insertSorted a bs

/-- Ascending sort, as used internally by `np.percentile`. -/
def sortAsc (xs : List ℚ) : List ℚ := xs.foldr insertSorted []

/-- `np.percentile(xs, 90)` with numpy's default linear interpolation:
sort ascending, take the virtual index `h = (n-1) * 90/100`, and
linearly interpolate between the neighbouring order statistics.
`(n-1)*9/10 = lo + frac/10` with `lo = (n-1)*9 / 10` (integer
division) and `frac = (n-1)*9 % 10`. -/
def npPercentile90 (xs : List ℚ) : ℚ :=
  let s := sortAsc xs
  let lo := ((s.length - 1) * 9) / 10
  let frac : ℚ := ((((s.length - 1) * 9) % 10 : ℕ) : ℚ) / 10
  s.getD lo 0 + frac * (s.getD (lo + 1) 0 - s.getD lo 0)

/-- Python/numpy integer indexing: a negative index `i` reads position
`len + i` (so `-1` is the last element).  `app.py` line 126–128 indexes
`strain[yield_index]` with a possibly negative `yield_index`. -/
def pyGet (xs : List ℚ) (i : Int) : ℚ :=
  if 0 ≤ i then xs.getD i.toNat 0 else xs.getD (xs.length - (-i).toNat) 0

/-- app.py lines 72–73: `stress = load / area; stress_mpa = stress / 1e6`. -/
def stressSeries (load : List ℚ) (area : ℚ) : List ℚ :=
  load.map (fun l => l / area / 1000000)

/-- app.py line 77: `strain = (displacement / 1000) / gauge_length`. -/
def strainSeries (displacement : List ℚ) (gaugeLength : ℚ) : List ℚ :=
  displacement.map (fun d => d / 1000 / gaugeLength)

/-- app.py line 82:
`youngs_modulus_arr = np.where(strain != 0, stress_mpa / strain, 0.0)`. -/
def youngsModulusPerPoint (stress strain : List ℚ) : List ℚ :=
  List.zipWith (fun σ ε => if ε ≠ 0 then σ / ε else 0) stress strain

/-- `np.gradient(f, x)` for 1-D arrays with coordinate array `x`
(default `edge_order = 1`): one-sided differences at the two ends and
the second-order non-uniform central formula at interior points
(`hs = x[i]-x[i-1]`, `hd = x[i+1]-x[i]`).  When the spacing is uniform
(`hs = hd = h`) the interior formula reduces exactly to
`(f[i+1]-f[i-1]) / (2h)`, numpy's uniform-spacing shortcut, so one
formula covers both numpy code paths in exact arithmetic.  Division is
total `ℚ`-division; see `npGradientVal` for the finiteness-tracking
variant. -/
def npGradientRaw (f x : List ℚ) : List ℚ :=
  (List.range f.length).map (fun i =>
    if i = 0 then
      (f.getD 1 0 - f.getD 0 0) / (x.getD 1 0 - x.getD 0 0)
    else if i = f.length - 1 then
      (f.getD i 0 - f.getD (i - 1) 0) / (x.getD i 0 - x.getD (i - 1) 0)
    else
      let hs := x.getD i 0 - x.getD (i - 1) 0
      let hd := x.getD (i + 1) 0 - x.getD i 0
      (hs * hs * f.getD (i + 1) 0 + (hd * hd - hs * hs) * f.getD i 0
          - hd * hd * f.getD (i - 1) 0) / (hs * hd * (hd + hs)))

/-- Finiteness-tracking variant of `npGradientRaw`: an entry is `none`
exactly when its IEEE evaluation in the Python code is non-finite
(`inf` or `nan`), i.e. when the denominator of the difference quotient
is zero (overflow aside).  With a zero denominator every numpy
coefficient path yields `±inf` or `nan`, never a finite value. -/
def npGradientVal (f x : List ℚ) : List (Option ℚ) :=
  (List.range f.length).map (fun i =>
    if i = 0 then
      let d := x.getD 1 0 - x.getD 0 0
      if d = 0 then none else some ((f.getD 1 0 - f.getD 0 0) / d)
    else if i = f.length - 1 then
      let d := x.getD i 0 - x.getD (i - 1) 0
      if d = 0 then none else some ((f.getD i 0 - f.getD (i - 1) 0) / d)
    else
      let hs := x.getD i 0 - x.getD (i - 1) 0
      let hd := x.getD (i + 1) 0 - x.getD i 0
      let den := hs * hd * (hd + hs)
      if den = 0 then none else
        some ((hs * hs * f.getD (i + 1) 0 + (hd * hd - hs * hs) * f.getD i 0
            - hd * hd * f.getD (i - 1) 0) / den))

/-- app.py lines 89–92: `np.gradient` raises `ValueError` iff the
array has fewer than 2 elements ("at least 2 elements are required");
the `except ValueError` handler substitutes `np.zeros_like(stress_mpa)`. -/
def tangentModulus (stress strain : List ℚ) : List ℚ :=
  if stress.length < 2 then List.replicate stress.length 0
  else npGradientRaw stress strain

/-- Finiteness-tracking variant of `tangentModulus` (same `ValueError`
branch; `some 0` = the finite float `0.0` from `np.zeros_like`). -/
def tangentModulusVal (stress strain : List ℚ) : List (Option ℚ) :=
  if stress.length < 2 then List.replicate stress.length (some 0)
  else npGradientVal stress strain

/-- app.py line 101:
`elastic_mask = (stress_mpa > 0.05 * max_stress_val) & (strain < 0.5 * max_strain_val)`. -/
def elasticMask (stress strain : List ℚ) : List Bool :=
  List.zipWith
    (fun σ ε => decide (1/20 * npMax stress < σ) && decide (ε < 1/2 * npMax strain))
    stress strain

/-- numpy boolean-mask indexing `vals[mask]`. -/
def maskedSelect : List ℚ → List Bool → List ℚ
  | x :: xs, b :: bs => if b then x :: maskedSelect xs bs else maskedSelect xs bs
  | _, _ => []

/-- app.py line 105: `valid_slopes = tangent_modulus_arr[elastic_mask]`. -/
def validSlopes (stress strain tangent : List ℚ) : List ℚ :=
  maskedSelect tangent (elasticMask stress strain)

/-- app.py lines 103–110: the scalar elastic modulus `E`.
If the elastic mask has any true entry: the mean of the slope values at
or above the 90th percentile of `valid_slopes`.  Otherwise the
fallback `np.max(tangent_modulus_arr[:max(5, int(len(strain)*0.2))])`
when `len(strain) > 5`, else `1.0`.  (`int(n * 0.2) = n / 5` in
integer arithmetic: the float product `n * 0.2` never truncates to a
different integer than exact `n/5` does.) -/
def computeE (stress strain tangent : List ℚ) : ℚ :=
  if (elasticMask stress strain).any id then
    mean ((validSlopes stress strain tangent).filter
      (fun v => decide (npPercentile90 (validSlopes stress strain tangent) ≤ v)))
  else if 5 < strain.length then
    npMax (tangent.take (max 5 (strain.length / 5)))
  else 1

/-- app.py lines 117–118 loop body condition at index `i`, on the pair
`(strain[i], stress_mpa[i])`: the curve sits strictly below the offset
line `E * (x - 0.002)` at a strain beyond the 0.002 offset. -/
def crossesBelowAt (E : ℚ) (p : ℚ × ℚ) : Prop :=
  1/500 < p.1 ∧ p.2 < E * (p.1 - 1/500)

instance (E : ℚ) (p : ℚ × ℚ) : Decidable (crossesBelowAt E p) := by
  unfold crossesBelowAt; infer_instance

/-- First index (if any) whose `(strain, stress)` pair satisfies the
crossing condition — the Python `for i in range(len(strain))` scan of
app.py lines 116–120. -/
def firstCross (E : ℚ) : List (ℚ × ℚ) → Option ℕ
  | [] => none
  | p :: ps =>
    if crossesBelowAt E p then some 0
    else (firstCross E ps).map (· + 1)

/-- app.py lines 116–120: `yield_index = i - 1` for the first crossing
index `i`, `None` when the loop never breaks.  Note the result can be
`-1` when the crossing holds at `i = 0`. -/
def yieldIndexOf (strain stress : List ℚ) (E : ℚ) : Option Int :=
  match firstCross E (strain.zip stress) with
  | some i => some ((i : Int) - 1)
  | none => none

/-- A charted point: strain, stress (MPa) and the argument of the
reported slope angle (`slope_angle = degrees(arctan(slopeAngleArg))`). -/
structure Point where
  strain : ℚ
  stress : ℚ
  slopeAngleArg : ℚ
  deriving DecidableEq

/-- app.py lines 122–129: the yield point is read with the raw
(possibly negative) `yield_index` — Python indexing semantics. -/
def yieldPointOf (strain stress youngs : List ℚ) : Option Int → Option Point
  | some yi => some ⟨pyGet strain yi, pyGet stress yi, pyGet youngs yi⟩
  | none => none

/-- app.py lines 132–138: the offset construction line. -/
def offsetLineOf : Option Point → List (ℚ × ℚ)
  | some p => [(1/500, 0), (p.strain, p.stress)]
  | none => []

/-- app.py lines 143–164: fracture index search.  Peak = first global
argmax of stress; within the post-peak slice of the tangent-modulus
array, take the first argmin; if that minimum slope is below
`-0.05 * E`, fracture is `max(peak_idx, min_slope_idx - 1)` (the `- 1`
in `ℕ` truncates at 0 exactly as Python's `max(peak_idx, -1)` would),
else the peak itself.  A post-peak slice of fewer than 2 elements also
defaults to the peak. -/
def fractureIndex (stress tangent : List ℚ) (E : ℚ) : ℕ :=
  if 1 < (tangent.drop (npArgmax stress)).length then
    if (tangent.drop (npArgmax stress)).getD (npArgmin (tangent.drop (npArgmax stress))) 0
        < -(1/20) * E then
      max (npArgmax stress) (npArgmax stress + npArgmin (tangent.drop (npArgmax stress)) - 1)
    else npArgmax stress
  else npArgmax stress

/-- The JSON payload assembled at app.py lines 178–199 (summary
metrics kept exact; `round(·, 2)` at lines 190–193 is display-only). -/
structure AnalysisResult where
  displacement : List ℚ
  load : List ℚ
  stress : List ℚ
  strain : List ℚ
  youngsModulus : List ℚ
  tangentModulus : List ℚ
  E : ℚ
  yieldIndex : Option Int
  yieldPoint : Option Point
  offsetLine : List (ℚ × ℚ)
  fractureIdx : ℕ
  fracturePoint : Point
  maxStress : ℚ
  maxStrain : ℚ
  maxLoad : ℚ
  yieldStrength : ℚ
  deriving DecidableEq

/-- The two failure shapes of the route: the explicit 400 for
non-positive geometry (app.py lines 32–33), and the catch-all 500
(`except Exception`, line 201) triggered e.g. by `np.max` of a
zero-size array at line 97. -/
inductive AnalyzeError where
  | invalidParameter
  | uncaughtException
  deriving DecidableEq

/-- The analysis body on already-aligned arrays (everything from
app.py line 70 onwards). -/
def analyzeCore (displacement load : List ℚ) (area gaugeLength : ℚ) : AnalysisResult :=
  let stress := stressSeries load area
  let strain := strainSeries displacement gaugeLength
  let youngs := youngsModulusPerPoint stress strain
  let tangent := tangentModulus stress strain
  let E := computeE stress strain tangent
  let yIdx := yieldIndexOf strain stress E
  let yPoint := yieldPointOf strain stress youngs yIdx
  let fIdx := fractureIndex stress tangent E
  { displacement := displacement
    load := load
    stress := stress
    strain := strain
    youngsModulus := youngs
    tangentModulus := tangent
    E := E
    yieldIndex := yIdx
    yieldPoint := yPoint
    offsetLine := offsetLineOf yPoint
    fractureIdx := fIdx
    fracturePoint := ⟨strain.getD fIdx 0, stress.getD fIdx 0, youngs.getD fIdx 0⟩
    maxStress := npMax stress
    maxStrain := npMax strain
    maxLoad := npMax load
    yieldStrength := match yPoint with | some p => p.stress | none => 0 }

/-- The `/analyze` route from the point where the two numeric columns
exist: the positivity guard of line 32, the alignment truncation of
lines 66–68, and the body.  With zero aligned samples the body raises
(`np.max` of a zero-size array, line 97) and the catch-all at line 201
turns this into a generic 500 — no partial result escapes, so the
raise is modelled as an upfront error. -/
def analyze (dRaw lRaw : List ℚ) (area gaugeLength : ℚ) :
    Except AnalyzeError AnalysisResult :=
  if area ≤ 0 ∨ gaugeLength ≤ 0 then .error .invalidParameter
  else if min dRaw.length lRaw.length = 0 then .error .uncaughtException
  else .ok (analyzeCore (dRaw.take (min dRaw.length lRaw.length))
      (lRaw.take (min dRaw.length lRaw.length)) area gaugeLength)

/-- Spec §4.2 step 2–3, stated index-wise as the spec words it: the
elastic-candidate region as a list of indices. -/
def elasticRegion (stress strain : List ℚ) : List ℕ :=
  (List.range stress.length).filter (fun i =>
    decide (1/20 * npMax stress < stress.getD i 0) &&
      decide (strain.getD i 0 < 1/2 * npMax strain))

/-- Spec §4.2 step 3, written from the spec's words: the tangent
values at the region's indices, their 90th percentile as threshold,
and the arithmetic mean of the values at or above it. -/
def specTopDecileMean (stress strain tangent : List ℚ) : ℚ :=
  mean (((elasticRegion stress strain).map (fun i => tangent.getD i 0)).filter
    (fun v => decide (npPercentile90
      ((elasticRegion stress strain).map (fun i => tangent.getD i 0)) ≤ v)))

/-- Spec §4.2 step 4 as claim C4 words it: `1.0` exactly when *fewer
than 5* samples exist, else the max tangent value in the first 20 % of
samples (at minimum the first 5). -/
def specFallbackE (strain tangent : List ℚ) : ℚ :=
  if strain.length < 5 then 1
  else npMax (tangent.take (max 5 (strain.length / 5)))

/-! ## Helper lemmas -/

lemma getD_zipWith' {α β γ : Type} (f : α → β → γ) (dA : α) (dB : β) (dC : γ) :
    ∀ (as : List α) (bs : List β) (i : ℕ), i < as.length → i < bs.length →
      (List.zipWith f as bs).getD i dC = f (as.getD i dA) (bs.getD i dB) := by
  intro as
  induction as with
  | nil => intro bs i h1 _; exact absurd h1 (by simp)
  | cons a as ih =>
    intro bs i h1 h2
    cases bs with
    | nil => exact absurd h2 (by simp)
    | cons b bs =>
      cases i with
      | zero => rfl
      | succ i =>
        exact ih bs i (by simpa [Nat.succ_lt_succ_iff] using h1)
          (by simpa [Nat.succ_lt_succ_iff] using h2)

lemma getD_zip (as bs : List ℚ) (i : ℕ) (h1 : i < as.length) (h2 : i < bs.length) :
    (as.zip bs).getD i (0, 0) = (as.getD i 0, bs.getD i 0) :=
  getD_zipWith' Prod.mk 0 0 (0, 0) as bs i h1 h2

lemma filter_map_succ {γ : Type} (l : List ℕ) (p : ℕ → Bool) (g : ℕ → γ) :
    ((l.map Nat.succ).filter p).map g
      = (l.filter (fun i => p (i + 1))).map (fun i => g (i + 1)) := by
  induction l with
  | nil => rfl
  | cons i l ih =>
    by_cases h : p (i + 1) = true
    · simp only [List.map_cons, List.filter_cons, Nat.succ_eq_add_one, h, if_pos]
      simpa using ih
    · simp only [List.map_cons, List.filter_cons, Nat.succ_eq_add_one,
        Bool.not_eq_true] at h ⊢
      rw [h]
      simpa using ih

lemma maskedSelect_eq :
    ∀ (xs : List ℚ) (ms : List Bool), xs.length = ms.length →
      maskedSelect xs ms
        = ((List.range xs.length).filter (fun i => ms.getD i false)).map
            (fun i => xs.getD i 0) := by
  intro xs
  induction xs with
  | nil => intro ms _; rfl
  | cons a xs ih =>
    intro ms hlen
    cases ms with
    | nil => exact absurd hlen (by simp)
    | cons b ms =>
      have hlen' : xs.length = ms.length := by simpa using hlen
      rw [show (a :: xs).length = xs.length + 1 from rfl, List.range_succ_eq_map]
      by_cases hb : b = true
      · simp only [maskedSelect, hb, if_pos, List.filter_cons, List.getD_cons_zero,
          if_pos, List.map_cons]
        rw [filter_map_succ]
        simp only [Nat.succ_eq_add_one, List.getD_cons_succ]
        rw [ih ms hlen']
      · have hb' : b = false := by simpa using hb
        subst hb'
        simp only [maskedSelect, Bool.false_eq_true, if_neg, List.filter_cons,
          List.getD_cons_zero, List.map_cons, if_false]
        rw [filter_map_succ]
        simp only [Nat.succ_eq_add_one, List.getD_cons_succ]
        rw [ih ms hlen']

lemma foldl_choice_mem {f : ℚ → ℚ → ℚ} (hf : ∀ a b, f a b = a ∨ f a b = b) :
    ∀ (xs : List ℚ) (a : ℚ), xs.foldl f a = a ∨ xs.foldl f a ∈ xs := by
  intro xs
  induction xs with
  | nil => intro a; left; rfl
  | cons x xs ih =>
    intro a
    rw [List.foldl_cons]
    rcases ih (f a x) with h | h
    · rcases hf a x with h2 | h2
      · left; rw [h, h2]
      · right; rw [h, h2]; exact List.mem_cons_self x xs
    · right; exact List.mem_cons_of_mem x h

lemma npMax_mem (xs : List ℚ) (h : xs ≠ []) : npMax xs ∈ xs := by
  match xs, h with
  | x :: xs, _ =>
    show xs.foldl max x ∈ x :: xs
    rcases foldl_choice_mem max_choice xs x with h2 | h2
    · rw [h2]; exact List.mem_cons_self x xs
    · exact List.mem_cons_of_mem x h2

lemma npMin_mem (xs : List ℚ) (h : xs ≠ []) : npMin xs ∈ xs := by
  match xs, h with
  | x :: xs, _ =>
    show xs.foldl min x ∈ x :: xs
    rcases foldl_choice_mem min_choice xs x with h2 | h2
    · rw [h2]; exact List.mem_cons_self x xs
    · exact List.mem_cons_of_mem x h2

lemma findIdx_lt_of_mem {p : ℚ → Bool} :
    ∀ {xs : List ℚ}, (∃ x ∈ xs, p x = true) → xs.findIdx p < xs.length := by
  intro xs
  induction xs with
  | nil => rintro ⟨x, hx, -⟩; exact absurd hx (by simp)
  | cons a xs ih =>
    rintro ⟨x, hx, hpx⟩
    rw [List.findIdx_cons]
    by_cases ha : p a = true
    · simp [ha]
    · have hb : p a = false := by simpa using ha
      rw [hb]
      rcases List.mem_cons.mp hx with rfl | hx'
      · exact absurd hpx ha
      · simpa [Nat.succ_lt_succ_iff] using ih ⟨x, hx', hpx⟩

lemma npArgmax_lt_length (xs : List ℚ) (h : xs ≠ []) : npArgmax xs < xs.length :=
  findIdx_lt_of_mem ⟨npMax xs, npMax_mem xs h, by simp⟩

lemma npArgmin_lt_length (xs : List ℚ) (h : xs ≠ []) : npArgmin xs < xs.length :=
  findIdx_lt_of_mem ⟨npMin xs, npMin_mem xs h, by simp⟩

lemma npGradientRaw_length (f x : List ℚ) : (npGradientRaw f x).length = f.length := by
  simp [npGradientRaw]

lemma tangentModulus_length (stress strain : List ℚ) :
    (tangentModulus stress strain).length = stress.length := by
  unfold tangentModulus
  split
  · simp
  · exact npGradientRaw_length stress strain

lemma stressSeries_length (load : List ℚ) (a : ℚ) :
    (stressSeries load a).length = load.length := by simp [stressSeries]

lemma strainSeries_length (d : List ℚ) (g : ℚ) :
    (strainSeries d g).length = d.length := by simp [strainSeries]

lemma analyzeCore_stress (d l : List ℚ) (a g : ℚ) :
    (analyzeCore d l a g).stress = stressSeries l a := rfl

lemma analyzeCore_strain (d l : List ℚ) (a g : ℚ) :
    (analyzeCore d l a g).strain = strainSeries d g := rfl

lemma analyzeCore_load (d l : List ℚ) (a g : ℚ) :
    (analyzeCore d l a g).load = l := rfl

lemma analyzeCore_tangentModulus (d l : List ℚ) (a g : ℚ) :
    (analyzeCore d l a g).tangentModulus
      = tangentModulus (stressSeries l a) (strainSeries d g) := rfl

lemma analyzeCore_E (d l : List ℚ) (a g : ℚ) :
    (analyzeCore d l a g).E
      = computeE (stressSeries l a) (strainSeries d g)
          (tangentModulus (stressSeries l a) (strainSeries d g)) := rfl

lemma analyzeCore_yieldIndex (d l : List ℚ) (a g : ℚ) :
    (analyzeCore d l a g).yieldIndex
      = yieldIndexOf (strainSeries d g) (stressSeries l a)
          (computeE (stressSeries l a) (strainSeries d g)
            (tangentModulus (stressSeries l a) (strainSeries d g))) := rfl

lemma analyzeCore_fractureIdx (d l : List ℚ) (a g : ℚ) :
    (analyzeCore d l a g).fractureIdx
      = fractureIndex (stressSeries l a)
          (tangentModulus (stressSeries l a) (strainSeries d g))
          (computeE (stressSeries l a) (strainSeries d g)
            (tangentModulus (stressSeries l a) (strainSeries d g))) := rfl

lemma analyze_ok_iff (d l : List ℚ) (a g : ℚ) (r : AnalysisResult) :
    analyze d l a g = .ok r ↔
      0 < a ∧ 0 < g ∧ min d.length l.length ≠ 0 ∧
        r = analyzeCore (d.take (min d.length l.length))
              (l.take (min d.length l.length)) a g := by
  unfold analyze
  by_cases h1 : a ≤ 0 ∨ g ≤ 0
  · rw [if_pos h1]
    constructor
    · intro h; exact Except.noConfusion h
    · rintro ⟨ha, hg, -, -⟩
      exact absurd h1 (by push_neg; exact ⟨ha, hg⟩)
  · rw [if_neg h1]
    push_neg at h1
    by_cases h2 : min d.length l.length = 0
    · rw [if_pos h2]
      constructor
      · intro h; exact Except.noConfusion h
      · rintro ⟨-, -, hn, -⟩; exact absurd h2 hn
    · rw [if_neg h2]
      constructor
      · intro h; exact ⟨h1.1, h1.2, h2, (Except.ok.inj h).symm⟩
      · rintro ⟨-, -, -, rfl⟩; rfl

lemma firstCross_eq_some {E : ℚ} :
    ∀ {ps : List (ℚ × ℚ)} {k : ℕ}, firstCross E ps = some k →
      k < ps.length ∧ crossesBelowAt E (ps.getD k (0, 0)) ∧
        ∀ j, j < k → ¬ crossesBelowAt E (ps.getD j (0, 0)) := by
  intro ps
  induction ps with
  | nil => intro k h; exact Option.noConfusion h
  | cons p ps ih =>
    intro k h
    unfold firstCross at h
    by_cases hc : crossesBelowAt E p
    · rw [if_pos hc] at h
      obtain rfl : (0 : ℕ) = k := Option.some.inj h
      exact ⟨by simp, hc, fun j hj => absurd hj (Nat.not_lt_zero j)⟩
    · rw [if_neg hc] at h
      obtain ⟨k', hk', rfl⟩ := Option.map_eq_some'.mp h
      obtain ⟨hlt, hcr, hmin⟩ := ih hk'
      refine ⟨by simpa [Nat.succ_lt_succ_iff] using hlt, hcr, ?_⟩
      intro j hj
      cases j with
      | zero => exact hc
      | succ j => exact hmin j (by omega)

lemma elasticMask_length (stress strain : List ℚ) :
    (elasticMask stress strain).length = min stress.length strain.length := by
  simp [elasticMask]

lemma validSlopes_eq_region_map (stress strain tangent : List ℚ)
    (h1 : strain.length = stress.length) (h2 : tangent.length = stress.length) :
    validSlopes stress strain tangent
      = (elasticRegion stress strain).map (fun i => tangent.getD i 0) := by
  unfold validSlopes elasticRegion
  rw [maskedSelect_eq tangent (elasticMask stress strain)
    (by rw [elasticMask_length]; omega)]
  rw [h2]
  congr 1
  apply List.filter_congr
  intro i hi
  have hi' : i < stress.length := by simpa using hi
  exact getD_zipWith' _ 0 0 false stress strain i hi' (by omega)

lemma fractureIndex_bounds (stress tangent : List ℚ) (E : ℚ)
    (hs : stress ≠ []) (hlen : tangent.length = stress.length) :
    npArgmax stress ≤ fractureIndex stress tangent E ∧
      fractureIndex stress tangent E < stress.length := by
  have hpeak : npArgmax stress < stress.length := npArgmax_lt_length stress hs
  unfold fractureIndex
  by_cases h1 : 1 < (tangent.drop (npArgmax stress)).length
  · rw [if_pos h1]
    have hpost : tangent.drop (npArgmax stress) ≠ [] := by
      intro hnil; rw [hnil] at h1; exact absurd h1 (by simp)
    have hlmin : npArgmin (tangent.drop (npArgmax stress))
        < (tangent.drop (npArgmax stress)).length :=
      npArgmin_lt_length _ hpost
    rw [List.length_drop] at hlmin
    by_cases h2 : (tangent.drop (npArgmax stress)).getD
        (npArgmin (tangent.drop (npArgmax stress))) 0 < -(1/20) * E
    · rw [if_pos h2]
      constructor
      · exact Nat.le_max_left _ _
      · omega
    · rw [if_neg h2]; exact ⟨Nat.le_refl _, hpeak⟩
  · rw [if_neg h1]; exact ⟨Nat.le_refl _, hpeak⟩

lemma max_div_pos (a b c : ℚ) (hc : 0 < c) : max (a / c) (b / c) = max a b / c := by
  rcases le_total a b with h | h
  · rw [max_eq_right h, max_eq_right (by gcongr)]
  · rw [max_eq_left h, max_eq_left (by gcongr)]

lemma foldl_max_div (c : ℚ) (hc : 0 < c) :
    ∀ (xs : List ℚ) (a : ℚ),
      (xs.map (· / c)).foldl max (a / c) = (xs.foldl max a) / c := by
  intro xs
  induction xs with
  | nil => intro a; rfl
  | cons x xs ih =>
    intro a
    simp only [List.map_cons, List.foldl_cons]
    rw [max_div_pos a x c hc, ih (max a x)]

lemma npMax_map_div (xs : List ℚ) (c : ℚ) (hc : 0 < c) :
    npMax (xs.map (· / c)) = npMax xs / c := by
  cases xs with
  | nil => simp [npMax]
  | cons x xs =>
    show (xs.map (· / c)).foldl max (x / c) = (xs.foldl max x) / c
    exact foldl_max_div c hc xs x

lemma div_le_div_iff_pos (a b c : ℚ) (hc : 0 < c) : a / c ≤ b / c ↔ a ≤ b := by
  rw [div_eq_mul_inv, div_eq_mul_inv]
  exact mul_le_mul_right (inv_pos.mpr hc)

lemma findIdx_ge_map_div (xs : List ℚ) (M c : ℚ) (hc : 0 < c) :
    (xs.map (· / c)).findIdx (fun v => decide (M / c ≤ v))
      = xs.findIdx (fun v => decide (M ≤ v)) := by
  induction xs with
  | nil => rfl
  | cons x xs ih =>
    simp only [List.map_cons, List.findIdx_cons]
    rw [decide_eq_decide.mpr (div_le_div_iff_pos M x c hc), ih]

lemma npArgmax_map_div (xs : List ℚ) (c : ℚ) (hc : 0 < c) :
    npArgmax (xs.map (· / c)) = npArgmax xs := by
  unfold npArgmax
  simp only [npMax_map_div xs c hc]
  exact findIdx_ge_map_div xs (npMax xs) c hc

lemma stressSeries_eq (load : List ℚ) (a : ℚ) :
    stressSeries load a = load.map (· / (a * 1000000)) := by
  unfold stressSeries
  simp [div_div]

/- Core Lean marks the rational arithmetic operations irreducible for
the elaborator; re-enable definitional unfolding so that `decide` can
evaluate the model on concrete inputs (the kernel unfolds them
regardless). -/
unseal Rat.add Rat.mul Rat.inv Rat.sub

instance {ε α : Type} [DecidableEq ε] [DecidableEq α] :
    DecidableEq (Except ε α) := fun x y =>
  match x, y with
  | .ok a, .ok b =>
    if h : a = b then .isTrue (by rw [h]) else .isFalse (by intro hc; cases hc; exact h rfl)
  | .error a, .error b =>
    if h : a = b then .isTrue (by rw [h]) else .isFalse (by intro hc; cases hc; exact h rfl)
  | .ok _, .error _ => .isFalse (by intro hc; cases hc)
  | .error _, .ok _ => .isFalse (by intro hc; cases hc)

/-! ## Claim theorems -/

/-- C1 (counterexample): the claim says an input with fewer than 2
aligned samples fails explicitly with an InsufficientData failure.  It
does not: one aligned sample (displacement `[1]` mm, load `[1]` N,
area `1`, gauge length `1`) produces a 200 result whose derived
tangent-modulus array is the degenerate all-zero `[0]` (from the
`except ValueError` fallback), with the fallback `E = 1.0`. -/
theorem one_sample_returns_degenerate_result :
    (analyze [1] [1] 1 1).toOption.map (fun r => (r.tangentModulus, r.E))
      = some ([0], 1) := by decide

/-- C1 (amended): with positive geometry and fewer than 2 aligned
samples, the code does not produce an InsufficientData failure: with 0
samples, `np.max` of a zero-size array raises and the catch-all turns
it into a generic uncaught-exception error (not a specific
insufficient-data kind); with exactly 1 sample, the analysis returns a
complete result whose tangent-modulus array is the degenerate
all-zero `[0]`. -/
theorem short_input_no_insufficient_data_failure (d l : List ℚ) (area g : ℚ)
    (ha : 0 < area) (hg : 0 < g) :
    (min d.length l.length = 0 →
      analyze d l area g = .error .uncaughtException) ∧
    (min d.length l.length = 1 →
      analyze d l area g = .ok (analyzeCore (d.take 1) (l.take 1) area g) ∧
        (analyzeCore (d.take 1) (l.take 1) area g).tangentModulus = [0]) := by
  have hng : ¬(area ≤ 0 ∨ g ≤ 0) := by push_neg; exact ⟨ha, hg⟩
  constructor
  · intro h0
    unfold analyze
    rw [if_neg hng, if_pos h0]
  · intro h1
    have hl : 1 ≤ l.length := by omega
    refine ⟨?_, ?_⟩
    · unfold analyze
      rw [if_neg hng, if_neg (by omega), h1]
    · rw [analyzeCore_tangentModulus]
      unfold tangentModulus
      have hlen : (stressSeries (l.take 1) area).length = 1 := by
        rw [stressSeries_length, List.length_take]
        omega
      rw [if_pos (by omega), hlen]
      rfl

/-- C1 (witness for the amended theorem at a concrete one-sample
input). -/
theorem short_input_no_insufficient_data_failure_witness :
    analyze [(1 : ℚ)] [(1 : ℚ)] 1 1
        = .ok (analyzeCore ([(1 : ℚ)].take 1) ([(1 : ℚ)].take 1) 1 1) ∧
      (analyzeCore ([(1 : ℚ)].take 1) ([(1 : ℚ)].take 1) 1 1).tangentModulus = [0] :=
  (short_input_no_insufficient_data_failure [(1 : ℚ)] [(1 : ℚ)] 1 1
    one_pos one_pos).2 rfl

/-- C2: when the crossing condition already holds at index 0
(displacement `[0.01, 0.02, 0.03, 0.04]` mm, load `[0, 10, 20, 30]` N,
area `1e-6` m², gauge length `0.001` m, so strain
`[0.01, 0.02, 0.03, 0.04]` and stress `[0, 10, 20, 30]` MPa, with the
fallback `E = 1.0`), the code sets `yield_index = -1` and then builds
the yield point from `strain[-1]`, `stress[-1]`, i.e. Python negative
indexing reads the LAST sample: the returned "yield point"
`(1/25, 30, 750)` is exactly the sample at index 3
(strain `0.04`, stress `30`, secant modulus `750`), an out-of-range
read the claim forbids.  This evaluates the code at the failing
input. -/
theorem yield_index_negative_reads_last_sample :
    (analyze [1/100, 1/50, 3/100, 1/25] [0, 10, 20, 30]
        (1/1000000) (1/1000)).toOption.map
      (fun r => (r.yieldIndex, r.yieldPoint,
        Point.mk (r.strain.getD 3 0) (r.stress.getD 3 0)
          (r.youngsModulus.getD 3 0)))
      = some (some (-1), some ⟨1/25, 30, 750⟩, ⟨1/25, 30, 750⟩) := by decide

/-- C3: whenever the elastic-candidate region is non-empty, the scalar
modulus `E` of the produced result equals the arithmetic mean of the
tangent-modulus values at the region's indices that are at or above
the 90th percentile (numpy linear interpolation) of the
tangent-modulus values restricted to that region. -/
theorem scalarE_is_top_decile_mean (d l : List ℚ) (a g : ℚ) (r : AnalysisResult)
    (hok : analyze d l a g = .ok r)
    (hmask : (elasticMask r.stress r.strain).any id = true) :
    r.E = specTopDecileMean r.stress r.strain r.tangentModulus := by
  obtain ⟨-, -, hn, rfl⟩ := (analyze_ok_iff d l a g r).mp hok
  rw [analyzeCore_stress, analyzeCore_strain] at hmask
  rw [analyzeCore_E, analyzeCore_stress, analyzeCore_strain, analyzeCore_tangentModulus]
  have h1 : (strainSeries (d.take (min d.length l.length)) g).length
      = (stressSeries (l.take (min d.length l.length)) a).length := by
    rw [strainSeries_length, stressSeries_length, List.length_take,
      List.length_take]
    omega
  have h2 : (tangentModulus (stressSeries (l.take (min d.length l.length)) a)
        (strainSeries (d.take (min d.length l.length)) g)).length
      = (stressSeries (l.take (min d.length l.length)) a).length :=
    tangentModulus_length _ _
  unfold computeE specTopDecileMean
  rw [if_pos hmask]
  rw [validSlopes_eq_region_map _ _ _ h1 h2]

/-- C3 (witness): a concrete input (displacement `[1, 3]` mm, load
`[1, 10]` N, area `1e-6`, gauge length `1`) whose elastic region is
non-empty; both sides evaluate to `4500`. -/
theorem scalarE_is_top_decile_mean_witness :
    (elasticMask (analyzeCore [1, 3] [1, 10] (1/1000000) 1).stress
        (analyzeCore [1, 3] [1, 10] (1/1000000) 1).strain).any id = true ∧
      (analyzeCore [1, 3] [1, 10] (1/1000000) 1).E
        = specTopDecileMean (analyzeCore [1, 3] [1, 10] (1/1000000) 1).stress
            (analyzeCore [1, 3] [1, 10] (1/1000000) 1).strain
            (analyzeCore [1, 3] [1, 10] (1/1000000) 1).tangentModulus :=
  ⟨by decide, scalarE_is_top_decile_mean [1, 3] [1, 10] (1/1000000) 1
    (analyzeCore [1, 3] [1, 10] (1/1000000) 1) (by decide) (by decide)⟩

/-- C4 (counterexample): the claim says `E = 1.0` exactly when the
total number of samples is *fewer than 5*.  The code tests
`len(strain) > 5`, so at exactly 5 samples it still returns `1.0`:
with displacement `[1..5]` mm and all-zero load (elastic region
empty, all tangent values 0), the code's `E` is `1` while the claim's
formula gives the maximum tangent value of the first 5 samples,
`0`. -/
theorem fallbackE_boundary_counterexample :
    (analyze [1, 2, 3, 4, 5] [0, 0, 0, 0, 0] 1 1).toOption.map
      (fun r => ((elasticMask r.stress r.strain).any id, r.E,
        specFallbackE r.strain r.tangentModulus))
      = some (false, 1, 0) := by decide

/-- C4 (amended): when the elastic-candidate region is empty, `E`
equals the maximum tangent-modulus value within the first 20 % of
samples (at minimum the first 5), except that `E = 1.0` exactly when
the total number of samples is AT MOST 5 (the code's `len(strain) > 5`
guard), not "fewer than 5"; the fallback is total (never raises) for
every non-empty input. -/
theorem fallbackE_boundary (d l : List ℚ) (a g : ℚ) (r : AnalysisResult)
    (hok : analyze d l a g = .ok r)
    (hmask : (elasticMask r.stress r.strain).any id = false) :
    r.E = if r.strain.length ≤ 5 then 1
          else npMax (r.tangentModulus.take (max 5 (r.strain.length / 5))) := by
  obtain ⟨-, -, -, rfl⟩ := (analyze_ok_iff d l a g r).mp hok
  rw [analyzeCore_stress, analyzeCore_strain] at hmask
  rw [analyzeCore_E, analyzeCore_strain, analyzeCore_tangentModulus]
  unfold computeE
  rw [if_neg (by rw [hmask]; exact Bool.false_ne_true)]
  by_cases h5 : 5 < (strainSeries (d.take (min d.length l.length)) g).length
  · rw [if_pos h5, if_neg (by omega)]
  · rw [if_neg h5, if_pos (by omega)]

/-- C4 (witness for the amended theorem): one aligned sample; the
elastic region is empty and `E = 1` by the `≤ 5` branch. -/
theorem fallbackE_boundary_witness :
    (elasticMask (analyzeCore [(1 : ℚ)] [(1 : ℚ)] 1 1).stress
        (analyzeCore [(1 : ℚ)] [(1 : ℚ)] 1 1).strain).any id = false ∧
      (analyzeCore [(1 : ℚ)] [(1 : ℚ)] 1 1).E
        = if (analyzeCore [(1 : ℚ)] [(1 : ℚ)] 1 1).strain.length ≤ 5 then 1
          else npMax ((analyzeCore [(1 : ℚ)] [(1 : ℚ)] 1 1).tangentModulus.take
            (max 5 ((analyzeCore [(1 : ℚ)] [(1 : ℚ)] 1 1).strain.length / 5))) :=
  ⟨by decide, fallbackE_boundary [(1 : ℚ)] [(1 : ℚ)] 1 1
    (analyzeCore [(1 : ℚ)] [(1 : ℚ)] 1 1) (by decide) (by decide)⟩

/-- C5 (counterexample): displacement `[1, 3, 5, 20]` mm, load
`[-10, 1/2, 2, 30]` N, area `1e-6` m², gauge length `1` m gives
strain `[0.001, 0.003, 0.005, 0.02]`, stress `[-10, 0.5, 2, 30]` MPa
and `E = 44950/51 ≈ 881.4`.  The first crossing is at index 1, so the
reported yield index is 0 — but the sample at index 0 lies strictly
BELOW the offset line (`-10 < E * (0.001 - 0.002) ≈ -0.88`): its
strain is below the 0.002 offset, so the scan skipped it without the
on-or-above-the-line property the claim asserts. -/
theorem yield_bracket_counterexample :
    (analyze [1, 3, 5, 20] [-10, 1/2, 2, 30] (1/1000000) 1).toOption.map
      (fun r => (r.yieldIndex,
        decide (r.E * (r.strain.getD 0 0 - 1/500) ≤ r.stress.getD 0 0),
        decide (r.stress.getD 1 0 < r.E * (r.strain.getD 1 0 - 1/500))))
      = some (some 0, false, true) := by decide

/-- C5 (amended): whenever a non-negative yield index `yi` is
reported, index `yi + 1` exists and the sample there lies strictly
below the 0.2 %-offset line; the sample at `yi` itself either lies on
or above the offset line OR has strain at most 0.002 (the scan's
crossing condition requires `strain > 0.002`, so a pre-offset-strain
sample below the line also terminates the bracket). -/
theorem yield_bracket_amended (d l : List ℚ) (a g : ℚ) (r : AnalysisResult)
    (yi : Int) (hok : analyze d l a g = .ok r) (hyi : r.yieldIndex = some yi)
    (hnn : 0 ≤ yi) :
    yi.toNat + 1 < r.strain.length ∧
    (r.strain.getD yi.toNat 0 ≤ 1/500 ∨
      r.E * (r.strain.getD yi.toNat 0 - 1/500) ≤ r.stress.getD yi.toNat 0) ∧
    r.stress.getD (yi.toNat + 1) 0
      < r.E * (r.strain.getD (yi.toNat + 1) 0 - 1/500) := by
  obtain ⟨-, -, hn, rfl⟩ := (analyze_ok_iff d l a g r).mp hok
  rw [analyzeCore_strain, analyzeCore_stress, analyzeCore_E]
  rw [analyzeCore_yieldIndex] at hyi
  set s := stressSeries (l.take (min d.length l.length)) a with hsdef
  set ε := strainSeries (d.take (min d.length l.length)) g with hεdef
  set E := computeE s ε (tangentModulus s ε) with hEdef
  have hε : ε.length = min d.length l.length := by
    rw [hεdef, strainSeries_length, List.length_take]; omega
  have hs : s.length = min d.length l.length := by
    rw [hsdef, stressSeries_length, List.length_take]; omega
  unfold yieldIndexOf at hyi
  cases hfc : firstCross E (ε.zip s) with
  | none => rw [hfc] at hyi; exact Option.noConfusion hyi
  | some k =>
    rw [hfc] at hyi
    have hky : (k : Int) - 1 = yi := Option.some.inj hyi
    have hk1 : 1 ≤ k := by omega
    have htn : yi.toNat = k - 1 := by omega
    obtain ⟨hklt, hcr, hmin⟩ := firstCross_eq_some hfc
    rw [List.length_zip, hε, hs, Nat.min_self] at hklt
    have hkk : k - 1 + 1 = k := by omega
    rw [htn]
    refine ⟨by rw [hε]; omega, ?_, ?_⟩
    · have h2 := hmin (k - 1) (by omega)
      rw [getD_zip ε s (k - 1) (by omega) (by omega)] at h2
      unfold crossesBelowAt at h2
      rcases not_and_or.mp h2 with h | h
      · exact Or.inl (not_lt.mp h)
      · exact Or.inr (not_lt.mp h)
    · rw [getD_zip ε s k (by omega) (by omega)] at hcr
      unfold crossesBelowAt at hcr
      rw [hkk]
      exact hcr.2

/-- C5 (witness for the amended theorem, at the same concrete input as
the counterexample: yield index 0 is reported, index 1 exists and is
strictly below the line, and index 0 falls in the
`strain ≤ 0.002`-or-above-the-line disjunction). -/
theorem yield_bracket_amended_witness :
    (0 : Int).toNat + 1
        < (analyzeCore ([(1:ℚ), 3, 5, 20].take 4)
            ([(-10:ℚ), 1/2, 2, 30].take 4) (1/1000000) 1).strain.length ∧
      ((analyzeCore ([(1:ℚ), 3, 5, 20].take 4) ([(-10:ℚ), 1/2, 2, 30].take 4)
            (1/1000000) 1).strain.getD (0 : Int).toNat 0 ≤ 1/500 ∨
        (analyzeCore ([(1:ℚ), 3, 5, 20].take 4) ([(-10:ℚ), 1/2, 2, 30].take 4)
              (1/1000000) 1).E
            * ((analyzeCore ([(1:ℚ), 3, 5, 20].take 4)
                ([(-10:ℚ), 1/2, 2, 30].take 4) (1/1000000) 1).strain.getD
                  (0 : Int).toNat 0 - 1/500)
          ≤ (analyzeCore ([(1:ℚ), 3, 5, 20].take 4)
              ([(-10:ℚ), 1/2, 2, 30].take 4) (1/1000000) 1).stress.getD
                (0 : Int).toNat 0) ∧
      (analyzeCore ([(1:ℚ), 3, 5, 20].take 4) ([(-10:ℚ), 1/2, 2, 30].take 4)
            (1/1000000) 1).stress.getD ((0 : Int).toNat + 1) 0
        < (analyzeCore ([(1:ℚ), 3, 5, 20].take 4) ([(-10:ℚ), 1/2, 2, 30].take 4)
              (1/1000000) 1).E
            * ((analyzeCore ([(1:ℚ), 3, 5, 20].take 4)
                ([(-10:ℚ), 1/2, 2, 30].take 4) (1/1000000) 1).strain.getD
                  ((0 : Int).toNat + 1) 0 - 1/500) :=
  yield_bracket_amended [(1:ℚ), 3, 5, 20] [(-10:ℚ), 1/2, 2, 30] (1/1000000) 1
    _ 0 (by decide) (by decide) (by decide)

/-- C6: for every input on which the pipeline produces a result, the
fracture index lies within `[peakIndex, length - 1]` where `peakIndex`
is the (first) global argmax of the stress array. -/
theorem fracture_within_post_peak (d l : List ℚ) (a g : ℚ) (r : AnalysisResult)
    (hok : analyze d l a g = .ok r) :
    npArgmax r.stress ≤ r.fractureIdx ∧ r.fractureIdx < r.stress.length := by
  obtain ⟨-, -, hn, rfl⟩ := (analyze_ok_iff d l a g r).mp hok
  rw [analyzeCore_stress, analyzeCore_fractureIdx]
  have hlen : (stressSeries (l.take (min d.length l.length)) a).length
      = min d.length l.length := by
    rw [stressSeries_length, List.length_take]; omega
  exact fractureIndex_bounds _ _ _
    (List.length_pos.mp (by rw [hlen]; omega)) (tangentModulus_length _ _)

/-- C6 (witness at a concrete input). -/
theorem fracture_within_post_peak_witness :
    npArgmax (analyzeCore ([(1:ℚ)].take 1) ([(1:ℚ)].take 1) 1 1).stress
        ≤ (analyzeCore ([(1:ℚ)].take 1) ([(1:ℚ)].take 1) 1 1).fractureIdx ∧
      (analyzeCore ([(1:ℚ)].take 1) ([(1:ℚ)].take 1) 1 1).fractureIdx
        < (analyzeCore ([(1:ℚ)].take 1) ([(1:ℚ)].take 1) 1 1).stress.length :=
  fracture_within_post_peak [(1:ℚ)] [(1:ℚ)] 1 1 _ (by decide)

/-- C7 (counterexample): the strain array `[1, 1, 1]` has a single
distinct value, yet the tangent-modulus computation does not return an
all-zero array: `np.gradient` does not raise for length ≥ 2, it
divides by the zero spacing and every entry comes out non-finite
(modelled as `none`). -/
theorem degenerate_strain_not_all_zero :
    ([(1:ℚ), 1, 1].dedup.length = 1) ∧
      tangentModulusVal [1, 2, 3] [1, 1, 1] = [none, none, none] ∧
      tangentModulusVal [1, 2, 3] [1, 1, 1] ≠ List.replicate 3 (some 0) := by
  decide

/-- C7 (amended): the zero-array fallback applies exactly to arrays
with fewer than 2 SAMPLES (where `np.gradient` raises `ValueError` and
the handler substitutes `np.zeros_like`): there the result is the
all-zero array of the same length as stress.  (For length ≥ 2 with
repeated strain values the gradient instead produces non-finite
entries, per the counterexample.) -/
theorem short_strain_gradient_all_zero (stress strain : List ℚ)
    (hlen : stress.length = strain.length) (h : strain.length < 2) :
    tangentModulusVal stress strain = List.replicate stress.length (some 0) := by
  unfold tangentModulusVal
  rw [if_pos (by omega)]

/-- C7 (witness for the amended theorem). -/
theorem short_strain_gradient_all_zero_witness :
    tangentModulusVal [(5:ℚ)] [(7:ℚ)] = List.replicate 1 (some 0) :=
  short_strain_gradient_all_zero [(5:ℚ)] [(7:ℚ)] rfl (by decide)

/-- C8: for every aligned input, the per-point Young's (secant)
modulus array has the length of the stress array, equals
`stress[i] / strain[i]` wherever `strain[i] ≠ 0`, and is `0` wherever
`strain[i] = 0`. -/
theorem youngs_pointwise (stress strain : List ℚ)
    (h : stress.length = strain.length) :
    (youngsModulusPerPoint stress strain).length = stress.length ∧
    ∀ i, i < stress.length →
      (strain.getD i 0 = 0 → (youngsModulusPerPoint stress strain).getD i 0 = 0) ∧
      (strain.getD i 0 ≠ 0 →
        (youngsModulusPerPoint stress strain).getD i 0
          = stress.getD i 0 / strain.getD i 0) := by
  constructor
  · unfold youngsModulusPerPoint
    rw [List.length_zipWith]
    omega
  · intro i hi
    have hz := getD_zipWith' (fun σ ε => if ε ≠ 0 then σ / ε else 0) 0 0 0
      stress strain i hi (by omega)
    constructor
    · intro h0
      unfold youngsModulusPerPoint
      rw [hz, h0]
      simp
    · intro h0
      unfold youngsModulusPerPoint
      rw [hz]
      exact if_pos h0

/-- C8 (witness at a concrete aligned input with a zero and a non-zero
strain entry). -/
theorem youngs_pointwise_witness :
    (youngsModulusPerPoint [6, 5] [2, 0]).getD 0 0 = (6:ℚ) / 2 ∧
      (youngsModulusPerPoint [6, 5] [2, 0]).getD 1 0 = 0 :=
  ⟨((youngs_pointwise [6, 5] [2, 0] rfl).2 0 (by decide)).2 (by decide),
    ((youngs_pointwise [6, 5] [2, 0] rfl).2 1 (by decide)).1 (by decide)⟩

/-- C9: non-positive area or gauge length is rejected with the
invalid-parameter failure before any computation; no derived series or
points are produced (the error return carries nothing). -/
theorem nonpositive_geometry_rejected (d l : List ℚ) (area g : ℚ)
    (h : area ≤ 0 ∨ g ≤ 0) :
    analyze d l area g = .error .invalidParameter := by
  unfold analyze
  rw [if_pos h]

/-- C9 (witness with `area = 0`, spec scenario 3). -/
theorem nonpositive_geometry_rejected_witness :
    ((0:ℚ) ≤ 0 ∨ (1:ℚ) ≤ 0) ∧
      analyze [(1:ℚ)] [(1:ℚ)] 0 1 = .error .invalidParameter :=
  ⟨Or.inl le_rfl,
    nonpositive_geometry_rejected [(1:ℚ)] [(1:ℚ)] 0 1 (Or.inl le_rfl)⟩

/-- C10: stress is load scaled by the positive constant
`1 / (area * 1e6)`, so the first index attaining the global maximum of
stress (the peak index used by the fracture locator) equals the first
index attaining the global maximum of load — in particular it does not
depend on `area`. -/
theorem peak_index_independent_of_area (d l : List ℚ) (a g : ℚ)
    (r : AnalysisResult) (hok : analyze d l a g = .ok r) :
    npArgmax r.stress = npArgmax r.load := by
  obtain ⟨ha, -, -, rfl⟩ := (analyze_ok_iff d l a g r).mp hok
  rw [analyzeCore_stress, analyzeCore_load, stressSeries_eq]
  exact npArgmax_map_div _ (a * 1000000) (by positivity)

/-- C10 (witness at a concrete input). -/
theorem peak_index_independent_of_area_witness :
    npArgmax (analyzeCore ([(1:ℚ), 2].take 2) ([(3:ℚ), 7].take 2) 1 1).stress
      = npArgmax (analyzeCore ([(1:ℚ), 2].take 2) ([(3:ℚ), 7].take 2) 1 1).load :=
  peak_index_independent_of_area [(1:ℚ), 2] [(3:ℚ), 7] 1 1 _ (by decide)

end TensileTestAnalyzer
